import Mathlib

/-!
Verification of the Nimble ledger core against its specification.

The development shallowly embeds the relevant Rust code:
  * `ledger/src/lib.rs` — digests, nonces, blocks, meta blocks, their
    canonical serialization, and receipt verification;
  * `endorser/src/main.rs` — the endorser RPC handlers (`append`,
    `read_latest_state`) and the lock flag.

Bytes are modelled as `List Nat`, machine integers as `Nat` with explicit
bounds where overflow matters.  Cryptographic signatures are abstracted by
an explicit verification function parameter (the Rust code only ever calls
`sig.verify(pk, msg)` and compares public keys bytewise).  SHA-256 is an
external dependency of the repository (the `sha2` crate); it is modelled
concretely from the FIPS 180-4 standard so that every definition stays
executable.
-/

deriving instance DecidableEq for Except

/-- Byte strings are modelled as lists of naturals. -/
abbrev Bytes := List Nat

/-- Serialization errors, from `CustomSerdeError` in `ledger/src/lib.rs`. -/
inductive CustomSerdeError where
  | IncorrectLength
  | InternalError
deriving DecidableEq

/-- Receipt/branch verification errors.  The enum itself lives in the
ledger crate's `errors.rs` (not under `src/`); the variants are exactly the
ones constructed by `ledger/src/lib.rs`. -/
inductive VerificationError where
  | DuplicateIds
  | InsufficientQuorum
  | InvalidPublicKey
  | InvalidSignature
  | InvalidReceipt
  | InvalidNonceSize
deriving DecidableEq

/-! ### SHA-256

Modelled from the spec: "SHA-256 is the only hash" (§4.1).  The
implementation below is a direct executable rendering of FIPS 180-4; the
repository consumes it through the external `sha2` crate. -/

/-- Truncation to a 32-bit word. -/
def w32 (x : Nat) : Nat := x % 4294967296

/-- Right rotation of a 32-bit word. -/
def rotr32 (n x : Nat) : Nat := w32 ((x >>> n) ||| (x <<< (32 - n)))

/-- SHA-256 choice function. -/
def shaCh (x y z : Nat) : Nat := (x &&& y) ^^^ ((x ^^^ 4294967295) &&& z)

/-- SHA-256 majority function. -/
def shaMaj (x y z : Nat) : Nat := (x &&& y) ^^^ (x &&& z) ^^^ (y &&& z)

/-- SHA-256 big sigma 0. -/
def bsig0 (x : Nat) : Nat := rotr32 2 x ^^^ rotr32 13 x ^^^ rotr32 22 x

/-- SHA-256 big sigma 1. -/
def bsig1 (x : Nat) : Nat := rotr32 6 x ^^^ rotr32 11 x ^^^ rotr32 25 x

/-- SHA-256 small sigma 0. -/
def ssig0 (x : Nat) : Nat := rotr32 7 x ^^^ rotr32 18 x ^^^ (x >>> 3)

/-- SHA-256 small sigma 1. -/
def ssig1 (x : Nat) : Nat := rotr32 17 x ^^^ rotr32 19 x ^^^ (x >>> 10)

/-- The eight 32-bit words of a SHA-256 state. -/
structure Hash8 where
  a : Nat
  b : Nat
  c : Nat
  d : Nat
  e : Nat
  f : Nat
  g : Nat
  h : Nat
deriving DecidableEq

/-- SHA-256 initial state. -/
def shaH0 : Hash8 :=
  ⟨1779033703, 3144134277, 1013904242, 2773480762,
   1359893119, 2600822924, 528734635, 1541459225⟩

/-- SHA-256 round constants. -/
def shaK : List Nat :=
  [1116352408, 1899447441, 3049323471, 3921009573, 961987163, 1508970993,
   2453635748, 2870763221, 3624381080, 310598401, 607225278, 1426881987,
   1925078388, 2162078206, 2614888103, 3248222580, 3835390401, 4022224774,
   264347078, 604807628, 770255983, 1249150122, 1555081692, 1996064986,
   2554220882, 2821834349, 2952996808, 3210313671, 3336571891, 3584528711,
   113926993, 338241895, 666307205, 773529912, 1294757372, 1396182291,
   1695183700, 1986661051, 2177026350, 2456956037, 2730485921, 2820302411,
   3259730800, 3345764771, 3516065817, 3600352804, 4094571909, 275423344,
   430227734, 506948616, 659060556, 883997877, 958139571, 1322822218,
   1537002063, 1747873779, 1955562222, 2024104815, 2227730452, 2361852424,
   2428436474, 2756734187, 3204031479, 3329325298]

/-- Big-endian bytes of a 32-bit word. -/
def wordBE4 (w : Nat) : Bytes := [w / 16777216 % 256, w / 65536 % 256, w / 256 % 256, w % 256]

/-- Big-endian 8-byte rendering of a 64-bit length field. -/
def beBytes8 (n : Nat) : Bytes :=
  [n / 72057594037927936 % 256, n / 281474976710656 % 256, n / 1099511627776 % 256,
   n / 4294967296 % 256, n / 16777216 % 256, n / 65536 % 256, n / 256 % 256, n % 256]

/-- Group bytes into big-endian 32-bit words. -/
def bytesToWordsBE : Bytes → List Nat
  | b0 :: b1 :: b2 :: b3 :: rest =>
      (((b0 * 256 + b1) * 256 + b2) * 256 + b3) :: bytesToWordsBE rest
  | _ => []

/-- SHA-256 padding: append `0x80`, zeros and the 64-bit bit length so that
the total length is a multiple of 64 bytes. -/
def shaPad (msg : Bytes) : Bytes :=
  msg ++ [128] ++ List.replicate ((119 - msg.length % 64) % 64) 0 ++ beBytes8 (8 * msg.length)

/-- Extend a message schedule by one word. -/
def shaExtendStep (w : List Nat) : List Nat :=
  let n := w.length
  w ++ [w32 (ssig1 (w.getD (n - 2) 0) + w.getD (n - 7) 0 +
             ssig0 (w.getD (n - 15) 0) + w.getD (n - 16) 0)]

/-- Iterate the schedule extension. -/
def shaScheduleAux : Nat → List Nat → List Nat
  | 0, w => w
  | n + 1, w => shaScheduleAux n (shaExtendStep w)

/-- The 64-word message schedule of one 64-byte block. -/
def shaSchedule (block : Bytes) : List Nat := shaScheduleAux 48 (bytesToWordsBE block)

/-- One SHA-256 compression round. -/
def shaRound (st : Hash8) (kw : Nat × Nat) : Hash8 :=
  let t1 := w32 (st.h + bsig1 st.e + shaCh st.e st.f st.g + kw.1 + kw.2)
  let t2 := w32 (bsig0 st.a + shaMaj st.a st.b st.c)
  ⟨w32 (t1 + t2), st.a, st.b, st.c, w32 (st.d + t1), st.e, st.f, st.g⟩

/-- The 64-round compression of one block. -/
def shaCompress (st : Hash8) (block : Bytes) : Hash8 :=
  (shaK.zip (shaSchedule block)).foldl shaRound st

/-- Pointwise 32-bit addition of states. -/
def hash8Add (x y : Hash8) : Hash8 :=
  ⟨w32 (x.a + y.a), w32 (x.b + y.b), w32 (x.c + y.c), w32 (x.d + y.d),
   w32 (x.e + y.e), w32 (x.f + y.f), w32 (x.g + y.g), w32 (x.h + y.h)⟩

/-- Split a message into 64-byte blocks; the fuel argument makes the
recursion structural (the initial fuel `l.length` always suffices because
every step consumes at least one byte of a nonempty list). -/
def shaBlocksAux : Nat → Bytes → List Bytes
  | 0, _ => []
  | fuel + 1, l => if l = [] then [] else l.take 64 :: shaBlocksAux fuel (l.drop 64)

/-- Split a padded message into 64-byte blocks. -/
def shaBlocks (l : Bytes) : List Bytes := shaBlocksAux l.length l

/-- Serialize a SHA-256 state to its 32 output bytes. -/
def hash8Out (s : Hash8) : Bytes :=
  wordBE4 s.a ++ wordBE4 s.b ++ wordBE4 s.c ++ wordBE4 s.d ++
  wordBE4 s.e ++ wordBE4 s.f ++ wordBE4 s.g ++ wordBE4 s.h

/-- SHA-256 of a byte string. -/
def sha256 (msg : Bytes) : Bytes :=
  hash8Out ((shaBlocks (shaPad msg)).foldl (fun st blk => hash8Add st (shaCompress st blk)) shaH0)

/-! ### Digests, nonces, blocks (`ledger/src/lib.rs`) -/

/-- A cryptographic digest (`NimbleDigest`): exactly 32 bytes. -/
abbrev NimbleDigest := { l : Bytes // l.length = 32 }

/-- `NimbleDigest::to_bytes`. -/
def NimbleDigest.to_bytes (d : NimbleDigest) : Bytes := d.val

/-- `NimbleDigest::from_bytes`: rejects any input whose length is not 32. -/
def NimbleDigest.from_bytes (bytes : Bytes) : Except CustomSerdeError NimbleDigest :=
  if h : bytes.length = 32 then .ok ⟨bytes, h⟩ else .error .IncorrectLength

/-- `NimbleDigest::digest`: SHA-256 of the input bytes. -/
def NimbleDigest.digest (bytes : Bytes) : NimbleDigest := ⟨sha256 bytes, rfl⟩

/-- A ledger handle is a digest. -/
abbrev Handle := NimbleDigest

/-- A cryptographic nonce (`Nonce`): exactly 16 bytes. -/
abbrev Nonce := { l : Bytes // l.length = 16 }

/-- `Nonce::new`: rejects any input whose length is not 16. -/
def Nonce.new (nonce : Bytes) : Except CustomSerdeError Nonce :=
  if h : nonce.length = 16 then .ok ⟨nonce, h⟩ else .error .IncorrectLength

/-- `Nonce::get`. -/
def Nonce.get (n : Nonce) : Bytes := n.val

/-- A block in a ledger is a byte array (`Block`). -/
structure Block where
  block : Bytes
deriving DecidableEq

/-- `Block::new`. -/
def Block.new (bytes : Bytes) : Block := ⟨bytes⟩

/-- `Block::genesis`: demands two 16-byte nonces and concatenates
`service_nonce || client_nonce || app_bytes`. -/
def Block.genesis (service_nonce_bytes client_nonce_bytes app_bytes : Bytes) :
    Except VerificationError Block :=
  match Nonce.new service_nonce_bytes, Nonce.new client_nonce_bytes with
  | .ok nonce, .ok client_nonce => .ok ⟨nonce.get ++ client_nonce.get ++ app_bytes⟩
  | _, _ => .error .InvalidNonceSize

/-! ### MetaBlock and its canonical serialization -/

/-- `MetaBlock`: view pointer, previous-tail hash, block hash, height. -/
structure MetaBlock where
  view : NimbleDigest
  prev : NimbleDigest
  block_hash : NimbleDigest
  height : Nat
deriving DecidableEq

/-- `MetaBlock::new`. -/
def MetaBlock.new (view prev block_hash : NimbleDigest) (height : Nat) : MetaBlock :=
  ⟨view, prev, block_hash, height⟩

/-- `MetaBlock::genesis`: all-zero `prev`, height 0. -/
def MetaBlock.genesis (view block_hash : NimbleDigest) : MetaBlock :=
  ⟨view, ⟨List.replicate 32 0, by simp⟩, block_hash, 0⟩

/-- `MetaBlock::get_height`. -/
def MetaBlock.get_height (m : MetaBlock) : Nat := m.height

/-- `MetaBlock::get_prev`. -/
def MetaBlock.get_prev (m : MetaBlock) : NimbleDigest := m.prev

/-- `MetaBlock::get_view`. -/
def MetaBlock.get_view (m : MetaBlock) : NimbleDigest := m.view

/-- `MetaBlock::get_block_hash` (used by `endorser/src/main.rs`; the accessor
simply projects the `block_hash` field). -/
def MetaBlock.get_block_hash (m : MetaBlock) : NimbleDigest := m.block_hash

/-- Little-endian 8-byte rendering of a `usize` (64-bit platform), as
produced by `usize::to_le_bytes`. -/
def toLeBytes8 (n : Nat) : Bytes :=
  [n % 256, n / 256 % 256, n / 65536 % 256, n / 16777216 % 256,
   n / 4294967296 % 256, n / 1099511627776 % 256, n / 281474976710656 % 256,
   n / 72057594037927936 % 256]

/-- `usize::from_le_bytes` on an 8-byte slice. -/
def fromLeBytes8 : Bytes → Nat
  | [b0, b1, b2, b3, b4, b5, b6, b7] =>
      b0 + 256 * b1 + 65536 * b2 + 16777216 * b3 + 4294967296 * b4 +
      1099511627776 * b5 + 281474976710656 * b6 + 72057594037927936 * b7
  | _ => 0

/-- `CustomSerde::to_bytes` for `MetaBlock`: `view || prev || block_hash ||
height` with the height little-endian in 8 bytes. -/
def MetaBlock.to_bytes (m : MetaBlock) : Bytes :=
  m.view.val ++ m.prev.val ++ m.block_hash.val ++ toLeBytes8 m.height

/-- `CustomSerde::from_bytes` for `MetaBlock`: rejects lengths other than
`3 * 32 + 8`; mirrors the source's fallible `try_into` of the trailing 8
bytes with the `InternalError` branch. -/
def MetaBlock.from_bytes (bytes : Bytes) : Except CustomSerdeError MetaBlock :=
  if hlen : bytes.length = 3 * 32 + 8 then
    let view : NimbleDigest := ⟨bytes.take 32, by simp [hlen]⟩
    let prev : NimbleDigest := ⟨(bytes.drop 32).take 32, by simp [hlen]⟩
    let block_hash : NimbleDigest := ⟨(bytes.drop 64).take 32, by simp [hlen]⟩
    let rest := bytes.drop (3 * 32)
    if rest.length = 8 then .ok ⟨view, prev, block_hash, fromLeBytes8 rest⟩
    else .error .InternalError
  else .error .IncorrectLength

/-- `NimbleHashTrait` for `Block`: hash of the raw bytes. -/
def Block.hash (b : Block) : NimbleDigest := NimbleDigest.digest b.block

/-- `NimbleHashTrait` for `MetaBlock`: hash of the canonical serialization. -/
def MetaBlock.hash (m : MetaBlock) : NimbleDigest := NimbleDigest.digest m.to_bytes

/-! ### Receipts (`ledger/src/lib.rs`)

Public keys are modelled by their byte representation (the Rust code only
compares `pk.to_bytes()` bytewise) and signature verification by a Boolean
function `sv sig pk msg` standing for `sig.verify(pk, msg).is_ok()`. -/

/-- An `(id, sig)` pair (`IdSig`). -/
structure IdSig where
  id : Bytes
  sig : Bytes
deriving DecidableEq

/-- A receipt: an ordered list of `(id, sig)` pairs. -/
structure Receipt where
  id_sigs : List IdSig
deriving DecidableEq

/-- The per-entry loop of `Receipt::verify`: first entry whose id is not in
`pk_vec` yields `InvalidPublicKey`; first entry whose signature fails yields
`InvalidSignature`. -/
def Receipt.verify_entries (sv : Bytes → Bytes → Bytes → Bool) (msg : Bytes)
    (pk_vec : List Bytes) : List IdSig → Except VerificationError Unit
  | [] => .ok ()
  | x :: rest =>
    if !(pk_vec.any (fun pk => pk == x.id)) then .error .InvalidPublicKey
    else if !(sv x.sig x.id msg) then .error .InvalidSignature
    else Receipt.verify_entries sv msg pk_vec rest

/-- `Receipt::verify`: uniqueness of ids, then the majority check on the
number of entries, then the per-entry loop — whose error is collapsed into
`InvalidReceipt` by the final `if res.is_err()` of the source. -/
def Receipt.verify (sv : Bytes → Bytes → Bytes → Bool) (r : Receipt) (msg : Bytes)
    (pk_vec : List Bytes) : Except VerificationError Unit :=
  let ids := r.id_sigs.map IdSig.id
  if r.id_sigs.length ≠ ids.dedup.length then .error .DuplicateIds
  else if r.id_sigs.length < pk_vec.length / 2 + 1 then .error .InsufficientQuorum
  else
    match Receipt.verify_entries sv msg pk_vec r.id_sigs with
    | .error _ => .error .InvalidReceipt
    | .ok _ => .ok ()

/-- A view-change receipt. -/
structure ViewChangeReceipt where
  id_sigs : List IdSig
deriving DecidableEq

/-- The per-entry signature loop of `ViewChangeReceipt::verify` (no key-set
membership check). -/
def ViewChangeReceipt.verify_sigs (sv : Bytes → Bytes → Bytes → Bool) (msg : Bytes) :
    List IdSig → Except VerificationError Unit
  | [] => .ok ()
  | x :: rest =>
    if !(sv x.sig x.id msg) then .error .InvalidSignature
    else ViewChangeReceipt.verify_sigs sv msg rest

/-- `ViewChangeReceipt::verify`: uniqueness of ids; a majority (counted over
the positions of `pk_vec_existing`) must appear among the signers; every
member of the set difference `pk_vec_proposed \ pk_vec_existing` must appear;
and all signatures must verify, a failure again collapsed to
`InvalidReceipt`. -/
def ViewChangeReceipt.verify (sv : Bytes → Bytes → Bytes → Bool) (r : ViewChangeReceipt)
    (msg : Bytes) (pk_vec_existing pk_vec_proposed : List Bytes) :
    Except VerificationError Unit :=
  let ids := r.id_sigs.map IdSig.id
  if r.id_sigs.length ≠ ids.dedup.length then .error .DuplicateIds
  else
    let num_sigs_from_pk_vec_existing :=
      (pk_vec_existing.filter (fun pk => r.id_sigs.any (fun x => x.id == pk))).length
    if num_sigs_from_pk_vec_existing < pk_vec_existing.length / 2 + 1 then
      .error .InsufficientQuorum
    else
      let pk_vec_proposed_but_not_in_existing :=
        pk_vec_proposed.dedup.filter (fun pk => !(pk_vec_existing.contains pk))
      let num_new :=
        (pk_vec_proposed_but_not_in_existing.filter
          (fun pk => r.id_sigs.any (fun x => x.id == pk))).length
      if num_new ≠ pk_vec_proposed_but_not_in_existing.length then
        .error .InsufficientQuorum
      else
        match ViewChangeReceipt.verify_sigs sv msg r.id_sigs with
        | .error _ => .error .InvalidReceipt
        | .ok _ => .ok ()

/-! ### Endorser service (`endorser/src/main.rs`)

The handlers below mirror `endorser/src/main.rs`.  The inner state machine
(`endorser_state.rs`) is code of this repository that is not under `src/`;
its operations are modelled from the spec where noted. -/

/-- Endorser-side errors.  The enum lives in the endorser crate's
`errors.rs` (not under `src/`); the variants are the ones matched by the
`append` handler plus the `Locked` state of the spec. -/
inductive EndorserError where
  | OutOfOrderAppend
  | InvalidConditionalTail
  | InvalidLedgerName
  | LedgerHeightOverflow
  | InvalidTailHeight
  | Locked
  | LedgerExists
deriving DecidableEq

/-- gRPC status codes used by the endorser service. -/
inductive StatusCode where
  | InvalidArgument
  | FailedPrecondition
  | Aborted
  | NotFound
  | OutOfRange
  | AlreadyExists
deriving DecidableEq

/-- A gRPC status: code plus message. -/
structure GrpcStatus where
  code : StatusCode
  message : String
deriving DecidableEq

/-- `Status::invalid_argument`. -/
def GrpcStatus.invalid_argument (m : String) : GrpcStatus := ⟨.InvalidArgument, m⟩

/-- `Status::failed_precondition`. -/
def GrpcStatus.failed_precondition (m : String) : GrpcStatus := ⟨.FailedPrecondition, m⟩

/-- `Status::aborted`. -/
def GrpcStatus.aborted (m : String) : GrpcStatus := ⟨.Aborted, m⟩

/-- `Status::not_found`. -/
def GrpcStatus.not_found (m : String) : GrpcStatus := ⟨.NotFound, m⟩

/-- `Status::out_of_range`. -/
def GrpcStatus.out_of_range (m : String) : GrpcStatus := ⟨.OutOfRange, m⟩

/-- `Status::already_exists`. -/
def GrpcStatus.already_exists (m : String) : GrpcStatus := ⟨.AlreadyExists, m⟩

/-- `EndorserFlags` of `endorser/src/main.rs`. -/
structure EndorserFlags where
  is_locked : Bool
deriving DecidableEq

/-- `EndorserFlags::set_lock`. -/
def EndorserFlags.set_lock (f : EndorserFlags) (to_lock : Bool) : EndorserFlags :=
  { f with is_locked := to_lock }

/-- `EndorserFlags::get_lock`. -/
def EndorserFlags.get_lock (f : EndorserFlags) : Bool := f.is_locked

/-- Modelled from the spec: signatures produced by an endorser are
abstracted as the signing key's bytes paired with the signed message; only
the shape of the control flow matters to the claims below, never the
signature bytes themselves. -/
def sign_with_key (sk msg : Bytes) : Bytes := sk ++ msg

/-- The `LedgerView` snapshot: per-ledger tails plus the view-tail
meta block. -/
structure LedgerView where
  ledger_tail_map : List (NimbleDigest × NimbleDigest × Nat)
  view_tail_metablock : MetaBlock
deriving DecidableEq

/-- Modelled from the spec: the per-endorser authoritative state of §4.4 —
a signing key, the per-ledger tail map `H → (D, u64)` and the view-ledger
tail meta block (`endorser_state.rs` is not under `src/`). -/
structure EndorserState where
  keypair_sk : Bytes
  ledger_tail_map : List (NimbleDigest × NimbleDigest × Nat)
  view_tail_metablock : MetaBlock
deriving DecidableEq

/-- Tail lookup in the ledger map. -/
def lookup_tail (m : List (NimbleDigest × NimbleDigest × Nat)) (handle : NimbleDigest) :
    Option (NimbleDigest × Nat) :=
  match m.find? (fun e => e.1 == handle) with
  | some e => some e.2
  | none => none

/-- Tail replacement in the ledger map. -/
def update_tail (m : List (NimbleDigest × NimbleDigest × Nat)) (handle : NimbleDigest)
    (v : NimbleDigest × Nat) : List (NimbleDigest × NimbleDigest × Nat) :=
  m.map (fun e => if e.1 == handle then (e.1, v.1, v.2) else e)

/-- Modelled from the spec: `EndorserState::read_latest_state` (§4.4) is a
pure read of the whole endorser state returning the `LedgerView` snapshot
and a signature over the nonce and the state; it never fails and never
mutates (`endorser_state.rs` is not under `src/`). -/
def EndorserState.read_latest_state (s : EndorserState) (nonce : Bytes) :
    Except EndorserError (LedgerView × Bytes) :=
  .ok (⟨s.ledger_tail_map, s.view_tail_metablock⟩,
       sign_with_key s.keypair_sk (nonce ++ s.view_tail_metablock.to_bytes))

/-- Modelled from the spec: `EndorserState::append` (§4.4) with its
preconditions in order — known handle, conditional-tail match,
conditional-height match, height-overflow check, stale-replay check — then
the tail update and the signature on the new meta block's hash
(`endorser_state.rs` is not under `src/`; the lock flag lives outside
`EndorserState` in `main.rs` and is not consulted by this operation). -/
def EndorserState.append (s : EndorserState) (handle block_hash cond_updated_tail_hash :
    NimbleDigest) (cond_updated_tail_height : Nat) :
    Except EndorserError (EndorserState × Bytes) :=
  match lookup_tail s.ledger_tail_map handle with
  | none => .error .InvalidLedgerName
  | some (t, h) =>
    if ¬(cond_updated_tail_height = 0 ∨ cond_updated_tail_hash = t) then
      .error .InvalidConditionalTail
    else if ¬(cond_updated_tail_height = 0 ∨ cond_updated_tail_height = h + 1) then
      .error .InvalidTailHeight
    else if h = 18446744073709551615 then .error .LedgerHeightOverflow
    else if cond_updated_tail_height ≠ 0 ∧ cond_updated_tail_height ≤ h then
      .error .OutOfOrderAppend
    else
      let m := MetaBlock.new s.view_tail_metablock.hash t block_hash (h + 1)
      .ok ({ s with ledger_tail_map := update_tail s.ledger_tail_map handle (m.hash, h + 1) },
           sign_with_key s.keypair_sk m.hash.val)

/-- The shared service state of `endorser/src/main.rs`: the endorser state
behind its lock plus the flags. -/
structure EndorserServiceState where
  state : EndorserState
  flags : EndorserFlags
deriving DecidableEq

/-- `AppendReq` as received on the wire: raw byte strings plus the height. -/
structure AppendReq where
  handle : Bytes
  block_hash : Bytes
  cond_updated_tail_hash : Bytes
  cond_updated_tail_height : Nat
deriving DecidableEq

/-- `AppendResp`. -/
structure AppendResp where
  signature : Bytes
deriving DecidableEq

/-- The error match of the `append` handler in `endorser/src/main.rs`,
mapping endorser errors to client-visible gRPC statuses. -/
def append_error_status : EndorserError → GrpcStatus
  | .OutOfOrderAppend => .failed_precondition "Out of order append"
  | .InvalidConditionalTail => .aborted "Invalid conditional tail hash"
  | .InvalidLedgerName => .not_found "Ledger handle not found"
  | .LedgerHeightOverflow => .out_of_range "Ledger height overflow"
  | .InvalidTailHeight => .already_exists "Invalid ledgher height"
  | _ => .aborted "Failed to append"

/-- The `append` RPC handler of `endorser/src/main.rs`: parse the three
32-byte digests (rejecting with `InvalidArgument` before touching the
state), run `EndorserState::append`, and map errors through
`append_error_status`. -/
def EndorserServiceState.append (svc : EndorserServiceState) (req : AppendReq) :
    Except GrpcStatus AppendResp × EndorserServiceState :=
  match NimbleDigest.from_bytes req.handle, NimbleDigest.from_bytes req.block_hash,
        NimbleDigest.from_bytes req.cond_updated_tail_hash with
  | .ok hd, .ok bd, .ok cd =>
    match svc.state.append hd bd cd req.cond_updated_tail_height with
    | .ok (s2, signature) => (.ok ⟨signature⟩, { svc with state := s2 })
    | .error e => (.error (append_error_status e), svc)
  | _, _, _ => (.error (.invalid_argument "Invalid input sizes"), svc)

/-- `ReadLatestStateReq`. -/
structure ReadLatestStateReq where
  nonce : Bytes
  view_ledger_height : Nat
  to_lock : Bool
deriving DecidableEq

/-- `LedgerTailMapEntry` of the wire response. -/
structure LedgerTailMapEntry where
  handle : Bytes
  tail : Bytes
  height : Nat
deriving DecidableEq

/-- `ReadLatestStateResp`. -/
structure ReadLatestStateResp where
  ledger_tail_map : List LedgerTailMapEntry
  view_ledger_tail_prev : Bytes
  view_ledger_tail_view : Bytes
  view_ledger_tail_height : Nat
  is_locked : Bool
  signature : Bytes
deriving DecidableEq

/-- The `read_latest_state` RPC handler of `endorser/src/main.rs`: snapshot
the state under a read lock, set the lock flag only when `to_lock` holds and
the requested view height equals the current view-tail height, and answer
with the snapshot plus the (possibly updated) flag. -/
def EndorserServiceState.read_latest_state (svc : EndorserServiceState)
    (req : ReadLatestStateReq) :
    Except GrpcStatus ReadLatestStateResp × EndorserServiceState :=
  match svc.state.read_latest_state req.nonce with
  | .ok (ledger_view, signature) =>
    let flags :=
      if req.to_lock && (req.view_ledger_height == ledger_view.view_tail_metablock.get_height)
      then svc.flags.set_lock req.to_lock
      else svc.flags
    let resp : ReadLatestStateResp :=
      { ledger_tail_map :=
          ledger_view.ledger_tail_map.map
            (fun e => ⟨e.1.to_bytes, e.2.1.to_bytes, e.2.2⟩)
        view_ledger_tail_prev := ledger_view.view_tail_metablock.get_prev.to_bytes
        view_ledger_tail_view := ledger_view.view_tail_metablock.get_block_hash.to_bytes
        view_ledger_tail_height := ledger_view.view_tail_metablock.get_height
        is_locked := flags.get_lock
        signature := signature }
    (.ok resp, { svc with flags := flags })
  | .error _ => (.error (GrpcStatus.aborted "Failed to read latest state"), svc)

/-! ### Renderings of spec sentences (for comparison with the code)

The following definitions follow the *spec's words* — not the source — so
that claims stated as equivalences can be compared against the code's
behaviour.  They are clearly separated from the embedding above. -/

/-- Following the spec's words for P5: the number of pairwise-distinct keys
of `pk_vec` for which the receipt contains a valid signature on `msg`. -/
def distinct_valid_sigs_from (sv : Bytes → Bytes → Bytes → Bool) (msg : Bytes)
    (pk_vec : List Bytes) (r : Receipt) : Nat :=
  (pk_vec.dedup.filter
    (fun pk => r.id_sigs.any (fun x => x.id == pk && sv x.sig x.id msg))).length

/-- Claim C1 exactly as stated: verification succeeds iff the receipt
contains at least `⌊|P|/2⌋ + 1` pairwise-distinct valid signatures from keys
in `P` on `msg`. -/
abbrev claimC1Statement (sv : Bytes → Bytes → Bytes → Bool) (msg : Bytes)
    (pk_vec : List Bytes) (r : Receipt) : Prop :=
  Receipt.verify sv r msg pk_vec = .ok () ↔
    pk_vec.length / 2 + 1 ≤ distinct_valid_sigs_from sv msg pk_vec r

/-- Claim C2 exactly as stated: verification succeeds iff at least
`⌊|E|/2⌋ + 1` members of `E` contributed valid signatures and every member
of `I \ E` contributed a valid signature. -/
abbrev claimC2Statement (sv : Bytes → Bytes → Bytes → Bool) (msg : Bytes)
    (pk_vec_existing pk_vec_proposed : List Bytes) (r : ViewChangeReceipt) : Prop :=
  ViewChangeReceipt.verify sv r msg pk_vec_existing pk_vec_proposed = .ok () ↔
    (pk_vec_existing.length / 2 + 1 ≤
      (pk_vec_existing.dedup.filter
        (fun pk => r.id_sigs.any (fun x => x.id == pk && sv x.sig x.id msg))).length ∧
     ∀ pk ∈ pk_vec_proposed, pk ∉ pk_vec_existing →
       ∃ x ∈ r.id_sigs, x.id = pk ∧ sv x.sig x.id msg = true)

/-! ### Concrete instances used by witnesses and counterexamples -/

/-- A signature checker accepting everything (a concrete instantiation of
the abstract verifier, used to exercise the control flow). -/
def svAcceptAll : Bytes → Bytes → Bytes → Bool := fun _ _ _ => true

/-- A concrete message. -/
def cexMsg : Bytes := [0]

/-- A one-key allowed set. -/
def cexP1 : List Bytes := [[1]]

/-- An empty key set. -/
def cexEmpty : List Bytes := []

/-- A receipt holding a valid quorum of `cexP1` plus one entry from an
unknown key. -/
def cexReceiptExtra : Receipt := ⟨[⟨[1], [9]⟩, ⟨[2], [9]⟩]⟩

/-- A view-change receipt with a duplicated signer. -/
def cexVCDup : ViewChangeReceipt := ⟨[⟨[1], [7]⟩, ⟨[1], [7]⟩]⟩

/-- A receipt whose single signer is not in `cexP1`. -/
def cexReceiptForeign : Receipt := ⟨[⟨[2], [9]⟩]⟩

/-- A receipt with duplicate signer ids. -/
def cexReceiptDup : Receipt := ⟨[⟨[1], [9]⟩, ⟨[1], [8]⟩]⟩

/-- The empty receipt. -/
def cexReceiptEmpty : Receipt := ⟨[]⟩

/-- A view-change receipt carrying a majority of `cexP1` plus an entry from
a key outside both endorser sets. -/
def cexVCOutsider : ViewChangeReceipt := ⟨[⟨[1], [9]⟩, ⟨[2], [9]⟩]⟩

/-- The all-zero digest. -/
def d0 : NimbleDigest := ⟨List.replicate 32 0, by simp⟩

/-- A concrete meta block. -/
def mb0 : MetaBlock := ⟨d0, d0, d0, 0⟩

/-- A concrete meta block with a nonzero height. -/
def mb5 : MetaBlock := ⟨d0, d0, d0, 5⟩

/-- A concrete endorser service state with an empty ledger map. -/
def svc0 : EndorserServiceState := ⟨⟨[5], [], mb0⟩, ⟨false⟩⟩

/-- An append request whose digests have the wrong length. -/
def reqBad : AppendReq := ⟨[], [], [], 0⟩

/-- An append request with well-sized digests for an unknown ledger. -/
def reqOk : AppendReq := ⟨List.replicate 32 1, List.replicate 32 2, List.replicate 32 3, 0⟩

/-! ### Helper lemmas -/

/-- Deduplication preserves the length exactly on duplicate-free lists. -/
theorem dedup_length_eq_iff {α : Type} [DecidableEq α] (l : List α) :
    l.dedup.length = l.length ↔ l.Nodup := by
  constructor
  · intro h
    have hs : l.dedup.Sublist l := List.dedup_sublist l
    have he : l.dedup = l := hs.eq_of_length h
    rw [← he]
    exact List.nodup_dedup l
  · intro h
    rw [List.dedup_eq_self.mpr h]

/-- A filter keeps the whole length exactly when every element passes. -/
theorem filter_length_eq_iff {α : Type} (p : α → Bool) (l : List α) :
    (l.filter p).length = l.length ↔ ∀ a ∈ l, p a = true := by
  constructor
  · intro h
    have he : l.filter p = l := (List.filter_sublist l).eq_of_length h
    intro a ha
    rw [← he] at ha
    exact (List.mem_filter.mp ha).2
  · intro h
    rw [List.filter_eq_self.mpr h]

/-- The per-entry loop of `Receipt::verify` succeeds exactly when every
entry's key belongs to the allowed set and every signature verifies. -/
theorem verify_entries_ok_iff (sv : Bytes → Bytes → Bytes → Bool) (msg : Bytes)
    (pk_vec : List Bytes) (l : List IdSig) :
    Receipt.verify_entries sv msg pk_vec l = .ok () ↔
      ∀ x ∈ l, x.id ∈ pk_vec ∧ sv x.sig x.id msg = true := by
  induction l with
  | nil => simp [Receipt.verify_entries]
  | cons x rest ih =>
    simp only [Receipt.verify_entries, List.mem_cons]
    by_cases h1 : (pk_vec.any (fun pk => pk == x.id)) = true
    · by_cases h2 : sv x.sig x.id msg = true
      · rw [if_neg (by simp [h1]), if_neg (by simp [h2])]
        rw [ih]
        constructor
        · intro hall y hy
          rcases hy with hy | hy
          · subst hy
            refine ⟨?_, h2⟩
            rcases List.any_eq_true.mp h1 with ⟨pk, hpk, hbeq⟩
            rw [beq_iff_eq] at hbeq
            rw [← hbeq]
            exact hpk
          · exact hall y hy
        · intro hall y hy
          exact hall y (Or.inr hy)
      · rw [if_neg (by simp [h1]), if_pos (by simp [h2])]
        constructor
        · intro h; cases h
        · intro hall
          exact absurd (hall x (Or.inl rfl)).2 h2
    · rw [if_pos (by simp [h1])]
      constructor
      · intro h; cases h
      · intro hall
        have hmem := (hall x (Or.inl rfl)).1
        exact absurd (List.any_eq_true.mpr ⟨x.id, hmem, by simp⟩) h1

/-- The signature loop of `ViewChangeReceipt::verify` succeeds exactly when
every signature in the receipt verifies. -/
theorem verify_sigs_ok_iff (sv : Bytes → Bytes → Bytes → Bool) (msg : Bytes)
    (l : List IdSig) :
    ViewChangeReceipt.verify_sigs sv msg l = .ok () ↔
      ∀ x ∈ l, sv x.sig x.id msg = true := by
  induction l with
  | nil => simp [ViewChangeReceipt.verify_sigs]
  | cons x rest ih =>
    simp only [ViewChangeReceipt.verify_sigs, List.mem_cons]
    by_cases h2 : sv x.sig x.id msg = true
    · rw [if_neg (by simp [h2])]
      rw [ih]
      constructor
      · intro hall y hy
        rcases hy with hy | hy
        · subst hy; exact h2
        · exact hall y hy
      · intro hall y hy
        exact hall y (Or.inr hy)
    · rw [if_pos (by simp [h2])]
      constructor
      · intro h; cases h
      · intro hall
        exact absurd (hall x (Or.inl rfl)) h2

/-- Membership in the modelled `HashSet` difference of the endorser sets. -/
theorem mem_diff_iff (pk_vec_existing pk_vec_proposed : List Bytes) (a : Bytes) :
    a ∈ pk_vec_proposed.dedup.filter (fun pk => !(pk_vec_existing.contains pk)) ↔
      a ∈ pk_vec_proposed ∧ a ∉ pk_vec_existing := by
  simp [List.mem_filter, List.mem_dedup, List.contains, List.elem_iff]

/-- Little-endian serialization of a height below `2 ^ 64` round-trips. -/
theorem fromLe_toLe (n : Nat) (h : n < 18446744073709551616) :
    fromLeBytes8 (toLeBytes8 n) = n := by
  simp [toLeBytes8, fromLeBytes8]
  omega

/-- The little-endian height field is 8 bytes long. -/
theorem toLeBytes8_length (n : Nat) : (toLeBytes8 n).length = 8 := rfl

/-- The canonical serialization, reassociated for slicing. -/
theorem metablock_to_bytes_assoc (v p b : Bytes) (hv : v.length = 32) (hp : p.length = 32)
    (hb : b.length = 32) (ht : Nat) :
    MetaBlock.to_bytes ⟨⟨v, hv⟩, ⟨p, hp⟩, ⟨b, hb⟩, ht⟩ = v ++ (p ++ (b ++ toLeBytes8 ht)) := by
  simp [MetaBlock.to_bytes, List.append_assoc]

/-- The canonical serialization of a meta block is 104 bytes. -/
theorem metablock_to_bytes_length (m : MetaBlock) : (MetaBlock.to_bytes m).length = 104 := by
  obtain ⟨⟨v, hv⟩, ⟨p, hp⟩, ⟨b, hb⟩, ht⟩ := m
  simp [MetaBlock.to_bytes, hv, hp, hb, toLeBytes8]

/-- Deserialization inverts serialization for representable heights. -/
theorem metablock_roundtrip (m : MetaBlock) (hm : m.height < 2 ^ 64) :
    MetaBlock.from_bytes (MetaBlock.to_bytes m) = .ok m := by
  obtain ⟨⟨v, hv⟩, ⟨p, hp⟩, ⟨b, hb⟩, ht⟩ := m
  have hm' : ht < 18446744073709551616 := hm
  rw [metablock_to_bytes_assoc v p b hv hp hb ht]
  have h1 : (v ++ (p ++ (b ++ toLeBytes8 ht))).take 32 = v := List.take_left' hv
  have h2 : (v ++ (p ++ (b ++ toLeBytes8 ht))).drop 32 = p ++ (b ++ toLeBytes8 ht) :=
    List.drop_left' hv
  have h3 : (v ++ (p ++ (b ++ toLeBytes8 ht))).drop 64 = b ++ toLeBytes8 ht := by
    have hd : ((v ++ (p ++ (b ++ toLeBytes8 ht))).drop 32).drop 32 =
        (v ++ (p ++ (b ++ toLeBytes8 ht))).drop 64 := by
      rw [List.drop_drop]
    rw [← hd, h2]
    exact List.drop_left' hp
  have h4 : (v ++ (p ++ (b ++ toLeBytes8 ht))).drop 96 = toLeBytes8 ht := by
    have hd : ((v ++ (p ++ (b ++ toLeBytes8 ht))).drop 64).drop 32 =
        (v ++ (p ++ (b ++ toLeBytes8 ht))).drop 96 := by
      rw [List.drop_drop]
    rw [← hd, h3]
    exact List.drop_left' hb
  have hL : (v ++ (p ++ (b ++ toLeBytes8 ht))).length = 3 * 32 + 8 := by
    simp [hv, hp, hb, toLeBytes8]
  unfold MetaBlock.from_bytes
  rw [dif_pos hL]
  have hrest : ((v ++ (p ++ (b ++ toLeBytes8 ht))).drop (3 * 32)).length = 8 := by
    rw [show (3 * 32 : Nat) = 96 from rfl, h4]
    exact toLeBytes8_length ht
  rw [if_pos hrest]
  simp only [Except.ok.injEq, MetaBlock.mk.injEq, Subtype.mk.injEq]
  refine ⟨h1, ?_, ?_, ?_⟩
  · rw [h2]
    exact List.take_left' hp
  · rw [h3]
    exact List.take_left' hb
  · rw [show (3 * 32 : Nat) = 96 from rfl, h4]
    exact fromLe_toLe ht hm'

/-- Deserialization rejects every byte string that is not 104 bytes long. -/
theorem metablock_from_bytes_wrong_length (bs : Bytes) (h : bs.length ≠ 104) :
    MetaBlock.from_bytes bs = .error .IncorrectLength := by
  unfold MetaBlock.from_bytes
  rw [dif_neg (by omega)]

/-- `Block::genesis` on two well-sized nonces returns the concatenation. -/
theorem block_genesis_ok (s c a : Bytes) (hs : s.length = 16) (hc : c.length = 16) :
    Block.genesis s c a = .ok ⟨s ++ c ++ a⟩ := by
  unfold Block.genesis Nonce.new
  rw [dif_pos hs, dif_pos hc]
  rfl

/-- `Nonce::new` rejects any input that is not 16 bytes long. -/
theorem nonce_new_err (n : Bytes) (h : n.length ≠ 16) :
    Nonce.new n = .error .IncorrectLength := by
  unfold Nonce.new
  rw [dif_neg h]

/-- `Block::genesis` rejects a wrong-sized nonce with `InvalidNonceSize`. -/
theorem block_genesis_err (s c a : Bytes) (h : s.length ≠ 16 ∨ c.length ≠ 16) :
    Block.genesis s c a = .error .InvalidNonceSize := by
  unfold Block.genesis
  rcases h with h | h
  · rw [nonce_new_err s h]
  · rw [nonce_new_err c h]
    rcases hs : Nonce.new s with e | n <;> rfl

/-- `NimbleDigest::from_bytes` on a 32-byte input. -/
theorem digest_from_bytes_ok (bs : Bytes) (h : bs.length = 32) :
    NimbleDigest.from_bytes bs = .ok ⟨bs, h⟩ := by
  unfold NimbleDigest.from_bytes
  rw [dif_pos h]

/-- `NimbleDigest::from_bytes` on a wrong-sized input. -/
theorem digest_from_bytes_err (bs : Bytes) (h : bs.length ≠ 32) :
    NimbleDigest.from_bytes bs = .error .IncorrectLength := by
  unfold NimbleDigest.from_bytes
  rw [dif_neg h]

/-- The `append` handler rejects wrong-sized digests before touching the
endorser state. -/
theorem append_handler_bad_lengths (svc : EndorserServiceState) (req : AppendReq)
    (h : req.handle.length ≠ 32 ∨ req.block_hash.length ≠ 32 ∨
         req.cond_updated_tail_hash.length ≠ 32) :
    EndorserServiceState.append svc req =
      (.error (GrpcStatus.invalid_argument "Invalid input sizes"), svc) := by
  unfold EndorserServiceState.append
  rcases h with h | h | h
  · rw [digest_from_bytes_err _ h]
  · rw [digest_from_bytes_err _ h]
    rcases hA : NimbleDigest.from_bytes req.handle with e | d <;> rfl
  · rw [digest_from_bytes_err _ h]
    rcases hA : NimbleDigest.from_bytes req.handle with e | d <;>
      rcases hB : NimbleDigest.from_bytes req.block_hash with e2 | d2 <;> rfl

/-- On well-sized digests, an inner `EndorserState::append` error surfaces
through `append_error_status` with the service state unchanged. -/
theorem append_handler_error_mapping (svc : EndorserServiceState) (req : AppendReq)
    (hh : req.handle.length = 32) (hb : req.block_hash.length = 32)
    (hc : req.cond_updated_tail_hash.length = 32) (e : EndorserError)
    (he : EndorserState.append svc.state ⟨req.handle, hh⟩ ⟨req.block_hash, hb⟩
            ⟨req.cond_updated_tail_hash, hc⟩ req.cond_updated_tail_height = .error e) :
    EndorserServiceState.append svc req = (.error (append_error_status e), svc) := by
  have hred : EndorserServiceState.append svc req =
      (match EndorserState.append svc.state ⟨req.handle, hh⟩ ⟨req.block_hash, hb⟩
          ⟨req.cond_updated_tail_hash, hc⟩ req.cond_updated_tail_height with
       | .ok (s2, signature) => (.ok ⟨signature⟩, { svc with state := s2 })
       | .error e2 => (.error (append_error_status e2), svc)) := by
    unfold EndorserServiceState.append
    rw [digest_from_bytes_ok _ hh, digest_from_bytes_ok _ hb, digest_from_bytes_ok _ hc]
  rw [hred, he]

/-- Sanity check of the SHA-256 model against the repository's own test
vector (`test_nimble_digest_hash_correctness_and_equality`). -/
theorem sha256_test_vector :
    sha256 [49] = [107, 134, 178, 115, 255, 52, 252, 225, 157, 107, 128, 78, 255, 90,
      63, 87, 71, 173, 164, 234, 162, 47, 29, 73, 192, 30, 82, 221, 183, 135, 91, 75] := by
  decide

/-! ### Claim theorems -/

/-- Claim C1 (amended): `Receipt::verify(msg, P)` succeeds iff the signer
ids of the receipt are pairwise distinct, the receipt has at least
`⌊|P|/2⌋ + 1` entries, every signer id is a key of `P`, and every signature
in the receipt is valid on `msg`.  (The claim's original reading — success
whenever a quorum of distinct valid `P`-signatures is merely contained —
fails: an extra entry from a key outside `P` makes verification fail.) -/
theorem claimC1_receipt_verify_iff (sv : Bytes → Bytes → Bytes → Bool) (r : Receipt)
    (msg : Bytes) (pk_vec : List Bytes) :
    Receipt.verify sv r msg pk_vec = .ok () ↔
      ((r.id_sigs.map IdSig.id).Nodup ∧
       pk_vec.length / 2 + 1 ≤ r.id_sigs.length ∧
       ∀ x ∈ r.id_sigs, x.id ∈ pk_vec ∧ sv x.sig x.id msg = true) := by
  unfold Receipt.verify
  have hml : (r.id_sigs.map IdSig.id).length = r.id_sigs.length := List.length_map _ _
  by_cases hnd : (r.id_sigs.map IdSig.id).Nodup
  · have hdl : (r.id_sigs.map IdSig.id).dedup.length = r.id_sigs.length := by
      rw [(dedup_length_eq_iff _).mpr hnd, hml]
    rw [if_neg (by omega)]
    by_cases hq : r.id_sigs.length < pk_vec.length / 2 + 1
    · rw [if_pos hq]
      constructor
      · intro h; cases h
      · intro h
        exact absurd h.2.1 (by omega)
    · rw [if_neg hq]
      rcases hres : Receipt.verify_entries sv msg pk_vec r.id_sigs with e | u
      · simp only []
        constructor
        · intro h; cases h
        · intro h
          have hok := (verify_entries_ok_iff sv msg pk_vec r.id_sigs).mpr h.2.2
          rw [hres] at hok
          cases hok
      · simp only []
        constructor
        · intro _
          exact ⟨hnd, by omega, (verify_entries_ok_iff sv msg pk_vec r.id_sigs).mp hres⟩
        · intro _; trivial
  · have hdl : (r.id_sigs.map IdSig.id).dedup.length ≠ r.id_sigs.length := by
      intro hcon
      exact hnd ((dedup_length_eq_iff _).mp (by omega))
    rw [if_pos (by omega)]
    constructor
    · intro h; cases h
    · intro h
      exact absurd h.1 hnd

/-- Claim C1 counterexample: a receipt containing a full valid quorum of
`P = [[1]]` plus one extra entry from the unknown key `[2]` contains
`⌊|P|/2⌋ + 1` pairwise-distinct valid `P`-signatures, yet `verify` fails —
so the claim's biconditional, exactly as stated, is false here. -/
theorem claimC1_counterexample :
    decide (claimC1Statement svAcceptAll cexMsg cexP1 cexReceiptExtra) = false := by
  decide

/-- Claim C2 (amended): `ViewChangeReceipt::verify(msg, E, I)` succeeds iff
the signer ids are pairwise distinct, at least `⌊|E|/2⌋ + 1` positions of
`E` carry keys that appear among the signers, every member of `I \ E`
appears among the signers, and every signature in the receipt — including
any from keys outside `E ∪ I` — is valid on `msg`.  (The original claim
omits distinctness and lets invalid extra signatures slip through.) -/
theorem claimC2_view_change_verify_iff (sv : Bytes → Bytes → Bytes → Bool)
    (r : ViewChangeReceipt) (msg : Bytes) (pk_vec_existing pk_vec_proposed : List Bytes) :
    ViewChangeReceipt.verify sv r msg pk_vec_existing pk_vec_proposed = .ok () ↔
      ((r.id_sigs.map IdSig.id).Nodup ∧
       pk_vec_existing.length / 2 + 1 ≤
         (pk_vec_existing.filter (fun pk => r.id_sigs.any (fun x => x.id == pk))).length ∧
       (∀ pk ∈ pk_vec_proposed, pk ∉ pk_vec_existing → ∃ x ∈ r.id_sigs, x.id = pk) ∧
       ∀ x ∈ r.id_sigs, sv x.sig x.id msg = true) := by
  unfold ViewChangeReceipt.verify
  have hml : (r.id_sigs.map IdSig.id).length = r.id_sigs.length := List.length_map _ _
  have hpresent : ∀ a : Bytes,
      (r.id_sigs.any (fun x => x.id == a)) = true ↔ ∃ x ∈ r.id_sigs, x.id = a := by
    intro a
    rw [List.any_eq_true]
    constructor
    · rintro ⟨x, hx, hbeq⟩
      exact ⟨x, hx, beq_iff_eq.mp hbeq⟩
    · rintro ⟨x, hx, heq⟩
      exact ⟨x, hx, beq_iff_eq.mpr heq⟩
  by_cases hnd : (r.id_sigs.map IdSig.id).Nodup
  · have hdl : (r.id_sigs.map IdSig.id).dedup.length = r.id_sigs.length := by
      rw [(dedup_length_eq_iff _).mpr hnd, hml]
    rw [if_neg (by omega)]
    by_cases hq : (pk_vec_existing.filter
        (fun pk => r.id_sigs.any (fun x => x.id == pk))).length <
        pk_vec_existing.length / 2 + 1
    · rw [if_pos hq]
      constructor
      · intro h; cases h
      · intro h
        exact absurd h.2.1 (by omega)
    · rw [if_neg hq]
      have hdiff : ((pk_vec_proposed.dedup.filter
              (fun pk => !(pk_vec_existing.contains pk))).filter
            (fun pk => r.id_sigs.any (fun x => x.id == pk))).length =
            (pk_vec_proposed.dedup.filter
              (fun pk => !(pk_vec_existing.contains pk))).length ↔
          (∀ pk ∈ pk_vec_proposed, pk ∉ pk_vec_existing → ∃ x ∈ r.id_sigs, x.id = pk) := by
        rw [filter_length_eq_iff]
        constructor
        · intro hall pk hmem hnotin
          exact (hpresent pk).mp (hall pk ((mem_diff_iff _ _ pk).mpr ⟨hmem, hnotin⟩))
        · intro hall a ha
          rcases (mem_diff_iff _ _ a).mp ha with ⟨hmem, hnotin⟩
          exact (hpresent a).mpr (hall a hmem hnotin)
      by_cases hnew : ((pk_vec_proposed.dedup.filter
              (fun pk => !(pk_vec_existing.contains pk))).filter
            (fun pk => r.id_sigs.any (fun x => x.id == pk))).length ≠
          (pk_vec_proposed.dedup.filter (fun pk => !(pk_vec_existing.contains pk))).length
      · rw [if_pos hnew]
        constructor
        · intro h; cases h
        · intro h
          exact absurd (hdiff.mpr h.2.2.1) hnew
      · rw [if_neg hnew]
        rcases hres : ViewChangeReceipt.verify_sigs sv msg r.id_sigs with e | u
        · simp only []
          constructor
          · intro h; cases h
          · intro h
            have hok := (verify_sigs_ok_iff sv msg r.id_sigs).mpr h.2.2.2
            rw [hres] at hok
            cases hok
        · simp only []
          constructor
          · intro _
            refine ⟨hnd, by omega, hdiff.mp (by omega), ?_⟩
            exact (verify_sigs_ok_iff sv msg r.id_sigs).mp hres
          · intro _; trivial
  · have hdl : (r.id_sigs.map IdSig.id).dedup.length ≠ r.id_sigs.length := by
      intro hcon
      exact hnd ((dedup_length_eq_iff _).mp (by omega))
    rw [if_pos (by omega)]
    constructor
    · intro h; cases h
    · intro h
      exact absurd h.1 hnd

/-- Claim C2 counterexample: with `E = [[1]]`, `I = []` and a receipt whose
two entries both come from `[1]` with valid signatures, the receipt carries
a majority of valid `E`-signatures and all of `I \ E`, yet `verify` fails
with `DuplicateIds` — so the claim's biconditional, exactly as stated, is
false here. -/
theorem claimC2_counterexample :
    decide (claimC2Statement svAcceptAll cexMsg cexP1 cexEmpty cexVCDup) = false := by
  decide

/-- Claim C3 (amended): `Receipt::verify` reports the first violated check —
`DuplicateIds` for repeated signer ids, then `InsufficientQuorum` below
`⌊|P|/2⌋ + 1` entries — but the per-entry failures are collapsed: once ids
are distinct and the quorum size is met, a signer id outside `P` or an
invalid signature yields `InvalidReceipt` rather than the internal
`InvalidPublicKey` / `InvalidSignature` kinds. -/
theorem claimC3_receipt_error_kinds (sv : Bytes → Bytes → Bytes → Bool) (r : Receipt)
    (msg : Bytes) (pk_vec : List Bytes) :
    (¬(r.id_sigs.map IdSig.id).Nodup →
       Receipt.verify sv r msg pk_vec = .error .DuplicateIds) ∧
    ((r.id_sigs.map IdSig.id).Nodup →
       r.id_sigs.length < pk_vec.length / 2 + 1 →
       Receipt.verify sv r msg pk_vec = .error .InsufficientQuorum) ∧
    ((r.id_sigs.map IdSig.id).Nodup →
       pk_vec.length / 2 + 1 ≤ r.id_sigs.length →
       (∃ x ∈ r.id_sigs, x.id ∉ pk_vec ∨ sv x.sig x.id msg = false) →
       Receipt.verify sv r msg pk_vec = .error .InvalidReceipt) := by
  have hml : (r.id_sigs.map IdSig.id).length = r.id_sigs.length := List.length_map _ _
  refine ⟨?_, ?_, ?_⟩
  · intro hnd
    have hdl : (r.id_sigs.map IdSig.id).dedup.length ≠ r.id_sigs.length := by
      intro hcon
      exact hnd ((dedup_length_eq_iff _).mp (by omega))
    unfold Receipt.verify
    rw [if_pos (by omega)]
  · intro hnd hq
    have hdl : (r.id_sigs.map IdSig.id).dedup.length = r.id_sigs.length := by
      rw [(dedup_length_eq_iff _).mpr hnd, hml]
    unfold Receipt.verify
    rw [if_neg (by omega), if_pos hq]
  · intro hnd hq hbad
    have hdl : (r.id_sigs.map IdSig.id).dedup.length = r.id_sigs.length := by
      rw [(dedup_length_eq_iff _).mpr hnd, hml]
    unfold Receipt.verify
    rw [if_neg (by omega), if_neg (by omega)]
    rcases hres : Receipt.verify_entries sv msg pk_vec r.id_sigs with e | u
    · simp only []
    · exfalso
      have hall := (verify_entries_ok_iff sv msg pk_vec r.id_sigs).mp hres
      rcases hbad with ⟨x, hx, hb⟩
      rcases hb with hb | hb
      · exact hb (hall x hx).1
      · rw [(hall x hx).2] at hb
        cases hb

/-- Claim C3 counterexample: a receipt whose only signer `[2]` is outside
`P = [[1]]` passes the distinctness and quorum checks, so the claim as
stated demands `InvalidPublicKey`; the code returns `InvalidReceipt`
instead. -/
theorem claimC3_counterexample :
    Receipt.verify svAcceptAll cexReceiptForeign cexMsg cexP1 = .error .InvalidReceipt ∧
    decide (Receipt.verify svAcceptAll cexReceiptForeign cexMsg cexP1 =
      .error .InvalidPublicKey) = false := by
  decide

/-- Claim C3 witness: each branch of the error characterization at a
concrete input. -/
theorem claimC3_witness :
    Receipt.verify svAcceptAll cexReceiptDup cexMsg cexP1 = .error .DuplicateIds ∧
    Receipt.verify svAcceptAll cexReceiptEmpty cexMsg cexP1 = .error .InsufficientQuorum ∧
    Receipt.verify svAcceptAll cexReceiptForeign cexMsg cexP1 = .error .InvalidReceipt :=
  ⟨(claimC3_receipt_error_kinds svAcceptAll cexReceiptDup cexMsg cexP1).1 (by decide),
   (claimC3_receipt_error_kinds svAcceptAll cexReceiptEmpty cexMsg cexP1).2.1
     (by decide) (by decide),
   (claimC3_receipt_error_kinds svAcceptAll cexReceiptForeign cexMsg cexP1).2.2
     (by decide) (by decide) ⟨⟨[2], [9]⟩, by decide, Or.inl (by decide)⟩⟩

/-- Claim C4: the canonical `MetaBlock` serialization is the 104-byte
concatenation `view || prev || block_hash || height(8, LE)`;
deserialization inverts it for every meta block (heights are `usize` and
hence below `2 ^ 64`), and every byte string whose length is not 104 is
rejected with `IncorrectLength`. -/
theorem claimC4_metablock_serde :
    (∀ m : MetaBlock, (MetaBlock.to_bytes m).length = 104) ∧
    (∀ m : MetaBlock, m.height < 2 ^ 64 →
       MetaBlock.from_bytes (MetaBlock.to_bytes m) = .ok m) ∧
    (∀ bs : Bytes, bs.length ≠ 104 →
       MetaBlock.from_bytes bs = .error .IncorrectLength) :=
  ⟨metablock_to_bytes_length, metablock_roundtrip, metablock_from_bytes_wrong_length⟩

/-- Claim C4 witness: the round trip at a concrete meta block and the
length error at a concrete short input. -/
theorem claimC4_witness :
    MetaBlock.from_bytes (MetaBlock.to_bytes mb5) = .ok mb5 ∧
    MetaBlock.from_bytes [0] = .error .IncorrectLength :=
  ⟨claimC4_metablock_serde.2.1 mb5 (by decide),
   claimC4_metablock_serde.2.2 [0] (by decide)⟩

/-- Claim C5: the `read_latest_state` handler never mutates the endorser
state (ledger tails and view tail are untouched), and the lock flag becomes
`true` exactly when `to_lock` holds and the requested view height equals
the current view-tail height — otherwise the flag (in particular an
already-set lock) is left unchanged. -/
theorem claimC5_read_latest_state_lock_frame (svc : EndorserServiceState)
    (req : ReadLatestStateReq) :
    (EndorserServiceState.read_latest_state svc req).2.state = svc.state ∧
    (EndorserServiceState.read_latest_state svc req).2.flags =
      (if req.to_lock && (req.view_ledger_height == svc.state.view_tail_metablock.height)
       then EndorserFlags.mk true
       else svc.flags) := by
  cases hb : req.to_lock <;>
    cases hc : (req.view_ledger_height == svc.state.view_tail_metablock.height) <;>
      simp [EndorserServiceState.read_latest_state, EndorserState.read_latest_state,
        MetaBlock.get_height, EndorserFlags.set_lock, hb, hc]

/-- Claim C6: the `append` handler rejects any wrong-sized handle, block
hash or conditional tail with `InvalidArgument` before the endorser state
is touched, and maps inner endorser errors to their client-visible
statuses: `InvalidConditionalTail ↦ Aborted`,
`InvalidTailHeight ↦ AlreadyExists`, `OutOfOrderAppend ↦
FailedPrecondition`, `LedgerHeightOverflow ↦ OutOfRange`. -/
theorem claimC6_append_status_mapping :
    (∀ (svc : EndorserServiceState) (req : AppendReq),
       (req.handle.length ≠ 32 ∨ req.block_hash.length ≠ 32 ∨
        req.cond_updated_tail_hash.length ≠ 32) →
       EndorserServiceState.append svc req =
         (.error (GrpcStatus.invalid_argument "Invalid input sizes"), svc)) ∧
    (∀ (svc : EndorserServiceState) (req : AppendReq)
       (hh : req.handle.length = 32) (hb : req.block_hash.length = 32)
       (hc : req.cond_updated_tail_hash.length = 32) (e : EndorserError),
       EndorserState.append svc.state ⟨req.handle, hh⟩ ⟨req.block_hash, hb⟩
           ⟨req.cond_updated_tail_hash, hc⟩ req.cond_updated_tail_height = .error e →
       EndorserServiceState.append svc req = (.error (append_error_status e), svc)) ∧
    append_error_status .InvalidConditionalTail =
      GrpcStatus.aborted "Invalid conditional tail hash" ∧
    append_error_status .InvalidTailHeight =
      GrpcStatus.already_exists "Invalid ledgher height" ∧
    append_error_status .OutOfOrderAppend =
      GrpcStatus.failed_precondition "Out of order append" ∧
    append_error_status .LedgerHeightOverflow =
      GrpcStatus.out_of_range "Ledger height overflow" :=
  ⟨append_handler_bad_lengths, append_handler_error_mapping, rfl, rfl, rfl, rfl⟩

/-- Claim C6 witness: the length gate and the error mapping at concrete
requests against a concrete endorser service state. -/
theorem claimC6_witness :
    EndorserServiceState.append svc0 reqBad =
      (.error (GrpcStatus.invalid_argument "Invalid input sizes"), svc0) ∧
    EndorserServiceState.append svc0 reqOk =
      (.error (GrpcStatus.not_found "Ledger handle not found"), svc0) :=
  ⟨claimC6_append_status_mapping.1 svc0 reqBad (Or.inl (by decide)),
   claimC6_append_status_mapping.2.1 svc0 reqOk (by decide) (by decide) (by decide)
     .InvalidLedgerName (by decide)⟩

/-- Claim C7: `Block::genesis` succeeds exactly on two 16-byte nonces,
producing the concatenation `service_nonce || client_nonce || app_bytes`;
otherwise it fails with `InvalidNonceSize`, and `Nonce::new` itself rejects
any wrong-sized input with `IncorrectLength`. -/
theorem claimC7_block_genesis :
    (∀ s c a : Bytes, s.length = 16 → c.length = 16 →
       Block.genesis s c a = .ok ⟨s ++ c ++ a⟩) ∧
    (∀ s c a : Bytes, (s.length ≠ 16 ∨ c.length ≠ 16) →
       Block.genesis s c a = .error .InvalidNonceSize) ∧
    (∀ n : Bytes, n.length ≠ 16 → Nonce.new n = .error .IncorrectLength) :=
  ⟨block_genesis_ok, block_genesis_err, nonce_new_err⟩

/-- Claim C7 witness: genesis at concrete nonces and the failure cases. -/
theorem claimC7_witness :
    Block.genesis (List.replicate 16 1) (List.replicate 16 2) [3] =
      .ok ⟨List.replicate 16 1 ++ List.replicate 16 2 ++ [3]⟩ ∧
    Block.genesis [] [] [] = .error .InvalidNonceSize ∧
    Nonce.new [] = .error .IncorrectLength :=
  ⟨claimC7_block_genesis.1 _ _ _ (by decide) (by decide),
   claimC7_block_genesis.2.1 [] [] [] (Or.inl (by decide)),
   claimC7_block_genesis.2.2 [] (by decide)⟩

/-- Claim C8: hashing is SHA-256 of the canonical serialization — a meta
block's hash is the digest of its 104-byte serialization, a block's hash is
the digest of its raw bytes, the digest is the SHA-256 function, and equal
values produce equal digests. -/
theorem claimC8_hash_determinism :
    (∀ m : MetaBlock, m.hash = NimbleDigest.digest (MetaBlock.to_bytes m)) ∧
    (∀ b : Block, b.hash = NimbleDigest.digest b.block) ∧
    (∀ bs : Bytes, (NimbleDigest.digest bs).val = sha256 bs) ∧
    (∀ m m2 : MetaBlock, m = m2 → m.hash = m2.hash) :=
  ⟨fun _ => rfl, fun _ => rfl, fun _ => rfl, fun m m2 h => by rw [h]⟩

/-- Claim C8 witness: the hash equations at a concrete meta block. -/
theorem claimC8_witness :
    MetaBlock.hash mb0 = NimbleDigest.digest (MetaBlock.to_bytes mb0) ∧
    MetaBlock.hash mb0 = MetaBlock.hash mb0 :=
  ⟨claimC8_hash_determinism.1 mb0, claimC8_hash_determinism.2.2.2 mb0 mb0 rfl⟩

/-- Claim C9: `MetaBlock::from_bytes` never returns `InternalError` — once
the 104-byte length check passes the trailing 8-byte slice always converts,
so every input either fails with `IncorrectLength` or parses. -/
theorem claimC9_from_bytes_never_internal (bs : Bytes) :
    MetaBlock.from_bytes bs = .error .IncorrectLength ∨
      ∃ m, MetaBlock.from_bytes bs = .ok m := by
  unfold MetaBlock.from_bytes
  by_cases hlen : bs.length = 3 * 32 + 8
  · right
    rw [dif_pos hlen]
    have hrest : (bs.drop (3 * 32)).length = 8 := by
      rw [List.length_drop, hlen]
    rw [if_pos hrest]
    exact ⟨_, rfl⟩
  · left
    rw [dif_neg hlen]

/-- Claim C10: `ViewChangeReceipt::verify` does not restrict signers to
`E ∪ I` — a receipt containing an entry from the key `[2]`, which belongs
to neither endorser set, still verifies because ids are distinct, a
majority of `E = [[1]]` signed, `I \ E` is empty, and all signatures
(including the outsider's) are valid. -/
theorem claimC10_view_change_accepts_outsider :
    ViewChangeReceipt.verify svAcceptAll cexVCOutsider cexMsg cexP1 cexEmpty = .ok () ∧
    (cexP1.contains [2]) = false ∧ (cexEmpty.contains [2]) = false ∧
    (cexVCOutsider.id_sigs.any (fun x => x.id == [2])) = true := by
  decide
